import Mathlib

/-!
Verification of the TerpeneMiner experiment-orchestration core: a shallow
embedding of the fold-based training/evaluation pipeline
(`src/experiments_orchestration/experiment_runner.py`), the sklearn model
interface (`src/models/ifaces/features_sklearn_model.py`) and the config
loader (`src/models/ifaces/config_baseclasses.py`), together with proofs of
the specified properties.

Modelling conventions: pandas DataFrames become lists of records (the
configured column names `id_col_name`, `target_col_name`, `split_col_name`
become record fields); Python sets become `Finset String`; Python floats
become `ℚ`; randomness (`DataFrame.sample`) is an explicit oracle parameter
with its contract stated as a hypothesis; external sklearn estimators are
opaque oracle functions; exceptions become `Except` / `Option`.
-/

namespace TerpeneMiner

open scoped List

/-! ## Embeddings of the Python string operations used by the source -/

/-- Embedding of Python `needle in hay` (contiguous-substring test) on
code-point lists. -/
def containsSub : List Char → List Char → Bool
  | needle, [] => needle.isEmpty
  | needle, c :: rest => needle.isPrefixOf (c :: rest) || containsSub needle rest

/-- Embedding of Python `needle in hay` for strings. -/
def pyIn (needle hay : String) : Bool :=
  containsSub needle.data hay.data

/-- Fueled worker for `pyReplace`: replaces non-overlapping occurrences of
`pat` left to right.  Initial fuel `l.length` suffices for non-empty `pat`. -/
def replaceFuel (pat rep : List Char) : Nat → List Char → List Char
  | 0, l => l
  | _ + 1, [] => []
  | fuel + 1, c :: rest =>
    if pat.isPrefixOf (c :: rest) then
      rep ++ replaceFuel pat rep fuel ((c :: rest).drop pat.length)
    else
      c :: replaceFuel pat rep fuel rest

/-- Embedding of Python `s.replace(pat, rep)`: every non-overlapping
occurrence of `pat` in `s` is replaced by `rep`, scanning left to right.
The source only calls this with a non-empty pattern. -/
def pyReplace (s pat rep : String) : String :=
  ⟨replaceFuel pat.data rep.data s.data.length s.data⟩

/-- Test that `p` is a prefix of `s` (used by the spec-modelled parameter
filter: "keys prefixed with `{class_name}_`"). -/
def prefixedBy (p s : String) : Bool :=
  p.data.isPrefixOf s.data

/-- Association-list lookup with string keys, embedding Python `dict`
lookup (first binding wins, matching dict semantics on duplicate-free
key lists). -/
def alookup {α : Type _} (k : String) : List (String × α) → Option α
  | [] => none
  | kv :: rest => if kv.1 = k then some kv.2 else alookup k rest

/-- The keys of an association list. -/
def akeys {α : Type _} (l : List (String × α)) : List String :=
  l.map (·.1)

/-! ## Data model -/

/-- A row of the raw TPS dataset (`tps_df`): protein id, a single label,
the fold-descriptor (split) column value, and the
`{split_col_name}_ignore_in_eval` flag. -/
structure RawRow where
  id : String
  label : String
  split : String
  ignore_in_eval : Bool
deriving DecidableEq

/-- A row after `groupby(id).agg(set)`: protein id with its set of labels. -/
structure AggRow where
  id : String
  labels : Finset String
deriving DecidableEq

/-- A numerical protein representation (one row of the `Emb` column). -/
abbrev Emb := List ℚ

/-- A YAML / hyperparameter value. -/
inductive PVal where
  | str (v : String)
  | int (v : Int)
  | rat (v : ℚ)
  | bool (v : Bool)
deriving DecidableEq

/-- The fields of `SklearnBaseConfig` used by the verified core
(column-name fields are embedded structurally as the record fields of
`RawRow` / `AggRow`). -/
structure SklearnCfg where
  class_names : List String
  neg_val : String
  max_train_negs_proportion : ℚ
  per_class_optimization : Bool
deriving DecidableEq

/-! ## Config loading (`config_baseclasses.py`, `BaseConfig.load`) -/

/-- A parsed YAML document: key/value pairs (Python dict). -/
abbrev YamlDoc := List (String × PVal)

/-- The merge step of `BaseConfig.load`: `configs_dict.update({key: val for
key, val in included_data.items() if key not in configs_dict})`. -/
def mergeIncluded (configs_dict included_data : YamlDoc) : YamlDoc :=
  configs_dict ++ included_data.filter (fun kv => (alookup kv.1 configs_dict).isNone)

/-- Embedding of `BaseConfig.load`.  `fs` is the file system (path to parsed
document), `parentJoin path q` embeds `Path(path).parent / q`.  `none`
models a raised exception (missing file, malformed document, or a
non-string `include` value). -/
def BaseConfig.load (fs : String → Option YamlDoc)
    (parentJoin : String → String → String) (path_to_config : String) :
    Option YamlDoc :=
  match fs path_to_config with
  | none => none
  | some configs_dict =>
    match alookup "include" configs_dict with
    | none => some configs_dict
    | some (PVal.str included_file_path) =>
      let popped := configs_dict.filter (fun kv => decide (kv.1 ≠ "include"))
      match fs (parentJoin path_to_config included_file_path) with
      | none => none
      | some included_data => some (mergeIncluded popped included_data)
    | some _ => none

/-! ## Fold partitioning (`experiment_runner.py` lines 98–110) -/

/-- The name of fold `i`: `f"fold_{i}"`. -/
def foldName (i : Nat) : String :=
  "fold_" ++ toString i

/-- Modelled from the spec: `get_folds` (defined in `src/utils/data.py`,
which is not part of the sources in scope) yields the K named disjoint
folds of the split-descriptor column; the runner uses their indices
`0..K-1` (`range(len(get_folds(...)))`). -/
def getFolds (K : Nat) : List Nat :=
  List.range K

/-- Embedding of `trn_folds = [f"fold_{i}" for i in range(len(get_folds(..))) if i != test_fold]`. -/
def trnFolds (K test_fold : Nat) : List String :=
  ((getFolds K).filter (fun i => decide (i ≠ test_fold))).map foldName

/-- Embedding of `trn_df = tps_df[tps_df[split_col_name].isin(set(trn_folds))]`. -/
def trainPart (K test_fold : Nat) (tps_df : List RawRow) : List RawRow :=
  tps_df.filter (fun r => decide (r.split ∈ trnFolds K test_fold))

/-- Embedding of `test_df = tps_df[tps_df[split_col_name] == f"fold_{test_fold}"]`. -/
def testPart (test_fold : Nat) (tps_df : List RawRow) : List RawRow :=
  tps_df.filter (fun r => decide (r.split = foldName test_fold))

/-! ## Ignore-in-eval override, aggregation, label normalization
(`experiment_runner.py` lines 111–138) -/

/-- Embedding of `df.loc[df[f"{split}_ignore_in_eval"] == 1, target_col] = "other"`. -/
def applyIgnoreOverride (df : List RawRow) : List RawRow :=
  df.map (fun r => if r.ignore_in_eval then { r with label := "other" } else r)

/-- Embedding of `df.groupby(id_col)[target_col].agg(set).reset_index()`; the grouped
row order (pandas sorts group keys) is irrelevant to the verified claims,
so first-occurrence order is used. -/
def aggregateById (df : List RawRow) : List AggRow :=
  ((df.map (·.id)).dedup).map (fun i =>
    { id := i
      labels := ((df.filter (fun r => decide (r.id = i))).map (·.label)).toFinset })

/-- The fixed sentinel labels `{"Unknown", "precursor substr"}`. -/
def sentinelLabels : Finset String :=
  {"Unknown", "precursor substr"}

/-- Embedding of `x if len(x.intersection({"Unknown", "precursor substr"})) else
x.union({"is_TPS"})`. -/
def normalizeLabelSet (x : Finset String) : Finset String :=
  if (x ∩ sentinelLabels).card ≠ 0 then x else x ∪ {"is_TPS"}

/-- Apply label normalization to every aggregated row of a partition. -/
def normalizeAgg (df : List AggRow) : List AggRow :=
  df.map (fun r => { r with labels := normalizeLabelSet r.labels })

/-- The aggregated training partition of fold `f` before normalization. -/
def aggTrainPart (K f : Nat) (df : List RawRow) : List AggRow :=
  aggregateById (applyIgnoreOverride (trainPart K f df))

/-- The aggregated test partition of fold `f` before normalization. -/
def aggTestPart (f : Nat) (df : List RawRow) : List AggRow :=
  aggregateById (applyIgnoreOverride (testPart f df))

/-- The training table handed to `model.fit` for fold `f`. -/
def foldTrainAgg (K f : Nat) (df : List RawRow) : List AggRow :=
  normalizeAgg (aggTrainPart K f df)

/-- The test table handed to `model.predict_proba` for fold `f`. -/
def foldTestAgg (f : Nat) (df : List RawRow) : List AggRow :=
  normalizeAgg (aggTestPart f df)

/-! ## Class imbalance correction (`features_sklearn_model.py` lines 44–64) -/

/-- Embedding of `train_df_neg_all`: rows whose label set contains the negative sentinel. -/
def trainDfNegAll (cfg : SklearnCfg) (train_df : List AggRow) : List AggRow :=
  train_df.filter (fun r => decide (cfg.neg_val ∈ r.labels))

/-- Embedding of `train_df_pos`: rows whose label set does not contain the sentinel. -/
def trainDfPos (cfg : SklearnCfg) (train_df : List AggRow) : List AggRow :=
  train_df.filter (fun r => decide (cfg.neg_val ∉ r.labels))

/-- Embedding of `train_df[id_col_name].nunique()`. -/
def nuniqueIds (train_df : List AggRow) : Nat :=
  ((train_df.map (·.id)).dedup).length

/-- Embedding of `negs_proportion = len(train_df_neg_all) / len(train_df)`. -/
def negsProportion (cfg : SklearnCfg) (train_df : List AggRow) : ℚ :=
  ((trainDfNegAll cfg train_df).length : ℚ) / (train_df.length : ℚ)

/-- Embedding of `positive_count = nunique * (1 - negs_proportion)`. -/
def positiveCount (cfg : SklearnCfg) (train_df : List AggRow) : ℚ :=
  (nuniqueIds train_df : ℚ) * (1 - negsProportion cfg train_df)

/-- Embedding of `required_negs_count = positive_count / (1 - max_train_negs_proportion)
- positive_count`. -/
def requiredNegsCount (cfg : SklearnCfg) (train_df : List AggRow) : ℚ :=
  positiveCount cfg train_df / (1 - cfg.max_train_negs_proportion)
    - positiveCount cfg train_df

/-- Embedding of Python `int(x)` on floats: truncation toward zero. -/
def pyInt (x : ℚ) : Int :=
  if 0 ≤ x then ⌊x⌋ else -⌊-x⌋

/-- The imbalance-correction step of `fit_core`.  `sample l n` embeds
`DataFrame.sample(n)` (a uniformly random size-`n` subsample without
replacement) and `shuffle l` embeds `DataFrame.sample(frac=1.0)` (a random
permutation); both are oracle parameters whose contracts appear as
hypotheses of the theorems below. -/
def rebalanceTrain (sample : List AggRow → Nat → List AggRow)
    (shuffle : List AggRow → List AggRow)
    (cfg : SklearnCfg) (train_df : List AggRow) : List AggRow :=
  if cfg.max_train_negs_proportion < negsProportion cfg train_df then
    shuffle (trainDfPos cfg train_df ++
      sample (trainDfNegAll cfg train_df)
        (pyInt (requiredNegsCount cfg train_df)).toNat)
  else train_df

/-- Embedding of `train_data = train_df.merge(features_df, on=id_col_name)` (inner join). -/
def innerMergeFeatures (train_df : List AggRow)
    (features_df : List (String × Emb)) : List (AggRow × Emb) :=
  train_df.flatMap (fun r =>
    (features_df.filter (fun p => decide (p.1 = r.id))).map (fun p => (r, p.2)))

/-! ## Global multi-output fitting (`features_sklearn_model.py` lines 68–93) -/

/-- A raised Python exception at fit time: `ValueError` (caught by the
fallback) or anything else (propagates). -/
inductive PyErr where
  | valueError
  | otherErr
deriving DecidableEq

/-- The external sklearn collaborators used by the global-mode fit, as
opaque oracles over an abstract classifier type `C`:
`mkClassifier` embeds `self.classifier_class(**params)`, `fitC` embeds
`classifier.fit(X, y)` (returning the fitted classifier or raising),
`wrapMulti` embeds `MultiOutputClassifier(classifier, n_jobs=n)`,
`binTransform` embeds `MultiLabelBinarizer(classes=cs).fit_transform(sets)`
and `binClasses` the resulting `label_binarizer.classes_`. -/
structure GlobalFitEnv (C : Type) where
  mkClassifier : List (String × PVal) → C
  fitC : C → List Emb → List (List Nat) → Except PyErr C
  wrapMulti : C → PVal → C
  binTransform : List String → List (Finset String) → List (List Nat)
  binClasses : List String → List (Finset String) → List String

/-- The multi-label indicator target built before the `try` block. -/
def fitTarget {C : Type} (env : GlobalFitEnv C) (cfg : SklearnCfg)
    (train_data : List (AggRow × Emb)) : List (List Nat) :=
  env.binTransform cfg.class_names (train_data.map (·.1.labels))

/-- Embedding of `np.stack(train_data["Emb"].values)`. -/
def fitX (train_data : List (AggRow × Emb)) : List Emb :=
  train_data.map (·.2)

/-- Embedding of `n_jobs = get_model_specific_params()["n_jobs"]` with `KeyError`
falling back to `-1`. -/
def fallbackNJobs (globalParams : List (String × PVal)) : PVal :=
  (alookup "n_jobs" globalParams).getD (PVal.int (-1))

/-- Embedding of `self.config.class_names = label_binarizer.classes_` (line 93): the
config after a successful global-mode fit. -/
def cfgAfterFit {C : Type} (env : GlobalFitEnv C) (cfg : SklearnCfg)
    (train_data : List (AggRow × Emb)) : SklearnCfg :=
  { cfg with
    class_names := env.binClasses cfg.class_names (train_data.map (·.1.labels)) }

/-- The global-mode branch of `fit_core`: construct the classifier,
binarize the labels, try a direct multi-output fit, fall back to a
`MultiOutputClassifier` wrapper on `ValueError`, and on success overwrite
`config.class_names` with the binarizer's class ordering. -/
def fitCoreGlobal {C : Type} (env : GlobalFitEnv C)
    (globalParams : List (String × PVal)) (cfg : SklearnCfg)
    (train_data : List (AggRow × Emb)) : Except PyErr (C × SklearnCfg) :=
  let classifier := env.mkClassifier globalParams
  let target := fitTarget env cfg train_data
  let cfgAfter := cfgAfterFit env cfg train_data
  match env.fitC classifier (fitX train_data) target with
  | Except.ok fitted => Except.ok (fitted, cfgAfter)
  | Except.error PyErr.valueError =>
    match env.fitC (env.wrapMulti classifier (fallbackNJobs globalParams))
        (fitX train_data) target with
    | Except.ok fitted => Except.ok (fitted, cfgAfter)
    | Except.error e => Except.error e
  | Except.error PyErr.otherErr => Except.error PyErr.otherErr

/-! ## Per-class fitting (`features_sklearn_model.py` lines 94–120) -/

/-- Modelled from the spec: `get_model_specific_params(class_name=c)`
(defined in `src/models/ifaces/model_baseclass.py`, which is not part of
the sources in scope) filters the global hyperparameter dictionary to the
keys prefixed with `{class_name}_`. -/
def get_model_specific_params (globalParams : List (String × PVal))
    (class_name : String) : List (String × PVal) :=
  globalParams.filter (fun kv => prefixedBy (class_name ++ "_") kv.1)

/-- Embedding of `model_params = {param_name.replace(f"{class_name}_", ""): param_val
for param_name, param_val in model_specific_params}`. -/
def perClassModelParams (globalParams : List (String × PVal))
    (class_name : String) : List (String × PVal) :=
  (get_model_specific_params globalParams class_name).map
    (fun kv => (pyReplace kv.1 (class_name ++ "_") "", kv.2))

/-- Embedding of `is_class_specific_param_present`: some parameter name contains the
class name as a substring. -/
def isClassSpecificParamPresent (globalParams : List (String × PVal))
    (class_name : String) : Bool :=
  (get_model_specific_params globalParams class_name).any
    (fun kv => pyIn class_name kv.1)

/-- Embedding of `y_binary = train_data[target_col].map(lambda x: int(class_name in x))`. -/
def yBinary (class_name : String) (train_data : List (AggRow × Emb)) : List Nat :=
  train_data.map (fun r => if class_name ∈ r.1.labels then 1 else 0)

/-- The external binary classifier for per-class mode, as an oracle:
`fitBin params X y` embeds `classifier_class(**params).fit(X, y)`. -/
structure PerClassFitEnv (B : Type) where
  fitBin : List (String × PVal) → List Emb → List Nat → B

/-- The per-class branch of `fit_core`: fit and store a classifier for
`class_name` in `class_2_classifier` only when a class-specific parameter
is present and `sum(y_binary)` is nonzero. -/
def fitCorePerClass {B : Type} (env : PerClassFitEnv B)
    (globalParams : List (String × PVal)) (class_name : String)
    (train_data : List (AggRow × Emb))
    (class_2_classifier : List (String × B)) : List (String × B) :=
  if isClassSpecificParamPresent globalParams class_name then
    if 0 < (yBinary class_name train_data).sum then
      (class_name,
        env.fitBin (perClassModelParams globalParams class_name)
          (fitX train_data) (yBinary class_name train_data)) :: class_2_classifier
    else class_2_classifier
  else class_2_classifier

/-! ## Prediction (`features_sklearn_model.py` lines 122–166) -/

/-- Embedding of `np.stack(features_df["Emb"].values).mean(axis=0)`: the componentwise
mean embedding over all stored ids. -/
def averageEmb (features_df : List (String × Emb)) : Emb :=
  match features_df.map (·.2) with
  | [] => []
  | e :: rest =>
    (List.range e.length).map (fun j =>
      (((e :: rest).map (fun x => x.getD j 0)).sum) / ((e :: rest).length : ℚ))

/-- Embedding of `val_df.merge(features_df, on=id_col_name, how="left")`: one output row
per matching feature row, a missing-embedding (`NaN`) row when the id has
no stored embedding. -/
def mergedRows (val_df : List AggRow) (features_df : List (String × Emb)) :
    List (String × Option Emb) :=
  val_df.flatMap (fun r =>
    let hits := features_df.filter (fun p => decide (p.1 = r.id))
    if hits.isEmpty then [(r.id, none)]
    else hits.map (fun p => (r.id, some p.2)))

/-- Embedding of `test_df["Emb"] = test_df["Emb"].map(lambda x: x if isinstance(x,
np.ndarray) else average_emb)`. -/
def filledRows (val_df : List AggRow) (features_df : List (String × Emb)) :
    List (String × Emb) :=
  (mergedRows val_df features_df).map
    (fun p => (p.1, p.2.getD (averageEmb features_df)))

/-- Embedding of `table.loc[ids]` on an id-indexed table: for each requested id in
order, all rows carrying that index value, in table order. -/
def locByIdOrder (table : List (String × Emb)) (ids : List String) :
    List (String × Emb) :=
  ids.flatMap (fun i => table.filter (fun p => decide (p.1 = i)))

/-- Embedding of `test_embs_np = np.stack(test_df.loc[val_df[id_col]]["Emb"].values)`:
the embedding matrix for a DataFrame input, reindexed by the input's id
order. -/
def testEmbs (val_df : List AggRow) (features_df : List (String × Emb)) :
    List Emb :=
  (locByIdOrder (filledRows val_df features_df) (val_df.map (·.id))).map (·.2)

/-- The argument of `predict_proba`: a labeled table (`pd.DataFrame`), a
raw embedding matrix (`np.ndarray`), or a value of any other Python type,
carrying that type's printed name. -/
inductive PredictInput where
  | table (val_df : List AggRow)
  | matrix (embs : List Emb)
  | invalid (typeName : String)

/-- The `NotImplementedError` message raised for an unsupported input type. -/
def predictTypeErrMsg (typeName : String) : String :=
  "Got " ++ typeName ++ " as input to predict_proba function, " ++
    "but only pd.DataFrame | np.ndarray are supported"

/-- The state of a fitted `FeaturesSklearnModel` read by `predict_proba`. -/
structure PredictModel (C B : Type) where
  cfg : SklearnCfg
  features_df : List (String × Emb)
  classifier : C
  class_2_classifier : List (String × B)

/-- The external probability predictors, as oracles: `globalProba clf embs
i j` embeds the class-`j` probability of row `i` from
`classifier.predict_proba(embs)` (already normalized across the plain /
`MultiOutputClassifier` output shapes), and `binProba clf embs i` embeds
`clf.predict_proba(embs)[:, 1][i]`. -/
structure PredictEnv (C B : Type) where
  globalProba : C → List Emb → Nat → Nat → ℚ
  binProba : B → List Emb → Nat → ℚ

/-- The per-class filling of `val_proba_np`: the column of a class with a
stored classifier comes from that classifier, any other column keeps the
`np.zeros` initialization. -/
def perClassProba {C B : Type} (env : PredictEnv C B) (model : PredictModel C B)
    (embs : List Emb) (n : Nat) : List (List ℚ) :=
  (List.range n).map (fun i =>
    model.cfg.class_names.map (fun cn =>
      match alookup cn model.class_2_classifier with
      | some clf => env.binProba clf embs i
      | none => 0))

/-- The global-mode filling of `val_proba_np`. -/
def globalModeProba {C B : Type} (env : PredictEnv C B) (model : PredictModel C B)
    (embs : List Emb) (n : Nat) : List (List ℚ) :=
  (List.range n).map (fun i =>
    (List.range model.cfg.class_names.length).map (fun j =>
      env.globalProba model.classifier embs i j))

/-- Embedding of `FeaturesSklearnModel.predict_proba`.  The returned model
component is the (unchanged) post-call state of `self`. -/
def predict_proba {C B : Type} (env : PredictEnv C B) (model : PredictModel C B)
    (val_df : PredictInput) :
    Except String (List (List ℚ)) × PredictModel C B :=
  match val_df with
  | PredictInput.invalid typeName =>
    (Except.error (predictTypeErrMsg typeName), model)
  | PredictInput.table v =>
    let embs := testEmbs v model.features_df
    if model.cfg.per_class_optimization then
      (Except.ok (perClassProba env model embs v.length), model)
    else
      (Except.ok (globalModeProba env model embs v.length), model)
  | PredictInput.matrix m =>
    if model.cfg.per_class_optimization then
      (Except.ok (perClassProba env model m m.length), model)
    else
      (Except.ok (globalModeProba env model m m.length), model)

/-! ## Per-fold driver for the global mode (`experiment_runner.py` lines
140–155, with `model.fit` delegating to `fit_core`; modelled per spec
§4.5 steps 4–6) -/

/-- One fold of the cross-validation driver in global mode: rebalance the
training partition, merge features, fit (with fallback), score the test
partition and build the serialized artifact
`(val_proba_np, model.config.class_names, test_df)`.  A fit error is fatal
for the run (`none`). -/
def runFoldGlobal {C B : Type} (env : GlobalFitEnv C) (penv : PredictEnv C B)
    (sample : List AggRow → Nat → List AggRow)
    (shuffle : List AggRow → List AggRow)
    (globalParams : List (String × PVal)) (cfg : SklearnCfg)
    (features_df : List (String × Emb)) (K test_fold : Nat)
    (tps_df : List RawRow) :
    Option (List (List ℚ) × List String × List AggRow) :=
  let trn_df := foldTrainAgg K test_fold tps_df
  let test_df := foldTestAgg test_fold tps_df
  let train_data :=
    innerMergeFeatures (rebalanceTrain sample shuffle cfg trn_df) features_df
  match fitCoreGlobal env globalParams cfg train_data with
  | Except.error _ => none
  | Except.ok (fitted, cfgAfter) =>
    let model : PredictModel C B :=
      { cfg := cfgAfter
        features_df := features_df
        classifier := fitted
        class_2_classifier := [] }
    match (predict_proba penv model (PredictInput.table test_df)).1 with
    | Except.error _ => none
    | Except.ok val_proba => some (val_proba, cfgAfter.class_names, test_df)

/-! ## Helper lemmas -/

theorem alookup_append {α : Type _} (k : String) (l₁ l₂ : List (String × α)) :
    alookup k (l₁ ++ l₂) =
      match alookup k l₁ with
      | some v => some v
      | none => alookup k l₂ := by
  induction l₁ with
  | nil => simp [alookup]
  | cons kv rest ih =>
    by_cases h : kv.1 = k
    · simp [alookup, h]
    · simp [alookup, h, ih]

theorem alookup_filter_key {α : Type _} (P : String → Bool) (k : String)
    (l : List (String × α)) :
    alookup k (l.filter (fun kv => P kv.1)) =
      if P k then alookup k l else none := by
  induction l with
  | nil => simp [alookup]
  | cons kv rest ih =>
    by_cases hk : kv.1 = k
    · subst hk
      by_cases hP : P kv.1
      · simp [alookup, hP, List.filter_cons]
      · simp [alookup, hP, List.filter_cons, ih]
    · by_cases hP : P kv.1
      · simp [alookup, hk, hP, List.filter_cons, ih]
      · simp [alookup, hk, hP, List.filter_cons, ih]

theorem alookup_mergeIncluded (k : String) (configs_dict included_data : YamlDoc) :
    alookup k (mergeIncluded configs_dict included_data) =
      match alookup k configs_dict with
      | some v => some v
      | none => alookup k included_data := by
  unfold mergeIncluded
  rw [alookup_append]
  cases h : alookup k configs_dict with
  | some v => simp
  | none =>
    simp only
    rw [alookup_filter_key (fun s => (alookup s configs_dict).isNone)]
    simp [h]

/-! ## C7: config inclusion merge -/

/-- Claim C7 as amended, config inclusion merge: the primary's `include` entry is popped before
the merge; on every other key the primary wins and the included document
contributes exactly its keys not bound in the primary; the result's
`include` binding, if any, comes from the included document. -/
theorem config_include_merge (fs : String → Option YamlDoc)
    (parentJoin : String → String → String) (path : String) (prim : YamlDoc)
    (hfs : fs path = some prim) :
    (alookup "include" prim = none →
      BaseConfig.load fs parentJoin path = some prim) ∧
    (∀ incPath incl, alookup "include" prim = some (PVal.str incPath) →
      fs (parentJoin path incPath) = some incl →
      (∀ k, k ≠ "include" →
        (BaseConfig.load fs parentJoin path).bind (alookup k) =
          (match alookup k prim with
           | some v => some v
           | none => alookup k incl)) ∧
      (BaseConfig.load fs parentJoin path).bind (alookup "include") =
        alookup "include" incl) := by
  constructor
  · intro hnone
    simp [BaseConfig.load, hfs, hnone]
  · intro incPath incl hinc hincl
    have hload : BaseConfig.load fs parentJoin path =
        some (mergeIncluded
          (prim.filter (fun kv => decide (kv.1 ≠ "include"))) incl) := by
      simp [BaseConfig.load, hfs, hinc, hincl]
    constructor
    · intro k hk
      rw [hload]
      simp only [Option.some_bind]
      rw [alookup_mergeIncluded]
      rw [alookup_filter_key (fun s => decide (s ≠ "include"))]
      simp [hk]
    · rw [hload]
      simp only [Option.some_bind]
      rw [alookup_mergeIncluded]
      rw [alookup_filter_key (fun s => decide (s ≠ "include"))]
      simp

/-- The primary document of the counterexample and of the positive example. -/
def cexPrimary : YamlDoc :=
  [("include", PVal.str "base.yaml"), ("a", PVal.int 1)]

/-- An included document that itself carries an `include` key. -/
def cexIncluded : YamlDoc :=
  [("include", PVal.str "zzz"), ("b", PVal.int 3)]

/-- The file system of the counterexample. -/
def cexFs : String → Option YamlDoc := fun p =>
  if p = "configs/config.yaml" then some cexPrimary
  else if p = "configs/base.yaml" then some cexIncluded
  else none

/-- Path join of the counterexample: `Path(p).parent / q` with
`p = "configs/config.yaml"`. -/
def cexJoin : String → String → String := fun _ q => "configs/" ++ q

/-- Refutation of C7 as stated: the primary document contains the key
`include` (value `"base.yaml"`), yet the loaded result binds `include` to
the included document's value `"zzz"` — so the included document
contributed a key present in the primary document, and the primary
document's value did not win on that conflicting key. -/
theorem config_include_merge_cex :
    alookup "include" cexPrimary = some (PVal.str "base.yaml") ∧
    (BaseConfig.load cexFs cexJoin "configs/config.yaml").bind (alookup "include") =
      some (PVal.str "zzz") ∧
    PVal.str "zzz" ≠ PVal.str "base.yaml" := by
  refine ⟨rfl, ?_, by decide⟩
  rfl

/-- The primary document of the spec's positive example, with its include
directive made explicit: `{include: base.yaml, a: 1}`. -/
def exPrimary : YamlDoc :=
  [("include", PVal.str "base.yaml"), ("a", PVal.int 1)]

/-- The included document of the spec's positive example: `{a: 2, b: 3}`. -/
def exIncluded : YamlDoc :=
  [("a", PVal.int 2), ("b", PVal.int 3)]

/-- The file system of the positive example. -/
def exFs : String → Option YamlDoc := fun p =>
  if p = "configs/config.yaml" then some exPrimary
  else if p = "configs/base.yaml" then some exIncluded
  else none

theorem config_include_merge_witness :
    (BaseConfig.load exFs cexJoin "configs/config.yaml").bind (alookup "a") =
      some (PVal.int 1) ∧
    (BaseConfig.load exFs cexJoin "configs/config.yaml").bind (alookup "b") =
      some (PVal.int 3) := by
  have h := (config_include_merge exFs cexJoin "configs/config.yaml" exPrimary
    rfl).2 "base.yaml" exIncluded rfl rfl
  constructor
  · have := h.1 "a" (by decide)
    simpa [exPrimary, alookup] using this
  · have := h.1 "b" (by decide)
    simpa [exPrimary, exIncluded, alookup] using this

/-! ## C5: global-mode fit fallback -/

/-- Claim C5, global-mode fit fallback: a direct fit succeeds as is; a
`ValueError` from the direct fit triggers exactly one refit of the
`MultiOutputClassifier`-wrapped classifier on the same features and
target, whose outcome (success or any error) becomes the outcome of
`fit_core`; any non-`ValueError` exception of the direct fit propagates. -/
theorem global_fit_fallback {C : Type} (env : GlobalFitEnv C)
    (globalParams : List (String × PVal)) (cfg : SklearnCfg)
    (train_data : List (AggRow × Emb)) :
    (∀ fitted,
      env.fitC (env.mkClassifier globalParams) (fitX train_data)
          (fitTarget env cfg train_data) = Except.ok fitted →
      fitCoreGlobal env globalParams cfg train_data =
        Except.ok (fitted, cfgAfterFit env cfg train_data)) ∧
    (env.fitC (env.mkClassifier globalParams) (fitX train_data)
        (fitTarget env cfg train_data) = Except.error PyErr.valueError →
      fitCoreGlobal env globalParams cfg train_data =
        (match env.fitC
            (env.wrapMulti (env.mkClassifier globalParams)
              (fallbackNJobs globalParams))
            (fitX train_data) (fitTarget env cfg train_data) with
         | Except.ok fitted => Except.ok (fitted, cfgAfterFit env cfg train_data)
         | Except.error e => Except.error e)) ∧
    (env.fitC (env.mkClassifier globalParams) (fitX train_data)
        (fitTarget env cfg train_data) = Except.error PyErr.otherErr →
      fitCoreGlobal env globalParams cfg train_data =
        Except.error PyErr.otherErr) := by
  refine ⟨?_, ?_, ?_⟩
  · intro fitted hfit
    simp [fitCoreGlobal, hfit]
  · intro hfit
    simp only [fitCoreGlobal, hfit]
  · intro hfit
    simp [fitCoreGlobal, hfit]

/-- A concrete classifier universe for the C5 witness: classifiers are
naturals, construction yields `0`, wrapping adds `10`, and fitting fails
with `ValueError` on exactly the unwrapped classifier `0`. -/
def wFitEnv : GlobalFitEnv Nat where
  mkClassifier := fun _ => 0
  fitC := fun c _ _ => if c = 0 then Except.error PyErr.valueError else Except.ok (c * 7)
  wrapMulti := fun c _ => c + 10
  binTransform := fun _ sets => sets.map (fun _ => [1])
  binClasses := fun cs _ => cs

/-- A tiny config for witnesses. -/
def wCfg : SklearnCfg :=
  { class_names := ["A", "B"]
    neg_val := "neg"
    max_train_negs_proportion := 1 / 2
    per_class_optimization := false }

theorem global_fit_fallback_witness :
    fitCoreGlobal wFitEnv [] wCfg [] =
      Except.ok (70, cfgAfterFit wFitEnv wCfg []) := by
  have h := (global_fit_fallback wFitEnv [] wCfg []).2.1 (by rfl)
  rw [h]
  rfl

/-! ## C6: class-name ordering authority -/

theorem fitCoreGlobal_ok_cfg {C : Type} (env : GlobalFitEnv C)
    (globalParams : List (String × PVal)) (cfg : SklearnCfg)
    (train_data : List (AggRow × Emb)) (fitted : C) (cfgAfter : SklearnCfg)
    (h : fitCoreGlobal env globalParams cfg train_data =
      Except.ok (fitted, cfgAfter)) :
    cfgAfter = cfgAfterFit env cfg train_data := by
  simp only [fitCoreGlobal] at h
  cases h1 : env.fitC (env.mkClassifier globalParams) (fitX train_data)
      (fitTarget env cfg train_data) with
  | ok f1 =>
    rw [h1] at h
    simp at h
    exact h.2.symm
  | error e1 =>
    rw [h1] at h
    cases e1 with
    | valueError =>
      cases h2 : env.fitC (env.wrapMulti (env.mkClassifier globalParams)
          (fallbackNJobs globalParams)) (fitX train_data)
          (fitTarget env cfg train_data) with
      | ok f2 =>
        rw [h2] at h
        simp at h
        exact h.2.symm
      | error e2 =>
        rw [h2] at h
        simp at h
    | otherErr => simp at h

/-- Claim C6, class-name ordering authority: after every successful global-mode fit inside a fold run, the recorded
class ordering is exactly the one the label binarizer produced from the
configured class names and the fold's training label sets; the serialized
fold artifact carries that post-fit ordering next to the probability
matrix and the test table, and every probability row has one entry per
name of that ordering. -/
theorem class_ordering_authoritative {C B : Type} (env : GlobalFitEnv C)
    (penv : PredictEnv C B) (sample : List AggRow → Nat → List AggRow)
    (shuffle : List AggRow → List AggRow)
    (globalParams : List (String × PVal)) (cfg : SklearnCfg)
    (features_df : List (String × Emb)) (K test_fold : Nat)
    (tps_df : List RawRow) (proba : List (List ℚ)) (names : List String)
    (test_df : List AggRow)
    (hrun : runFoldGlobal env penv sample shuffle globalParams cfg features_df
      K test_fold tps_df = some (proba, names, test_df)) :
    names = env.binClasses cfg.class_names
      ((innerMergeFeatures
        (rebalanceTrain sample shuffle cfg (foldTrainAgg K test_fold tps_df))
        features_df).map (·.1.labels)) ∧
    test_df = foldTestAgg test_fold tps_df ∧
    proba.length = (foldTestAgg test_fold tps_df).length ∧
    (∀ row ∈ proba, row.length = names.length) := by
  simp only [runFoldGlobal] at hrun
  cases hfit : fitCoreGlobal env globalParams cfg
      (innerMergeFeatures
        (rebalanceTrain sample shuffle cfg (foldTrainAgg K test_fold tps_df))
        features_df) with
  | error e =>
    rw [hfit] at hrun
    simp at hrun
  | ok pr =>
    rw [hfit] at hrun
    obtain ⟨fitted, cfgA⟩ := pr
    have hcfg := fitCoreGlobal_ok_cfg env globalParams cfg _ fitted cfgA hfit
    simp only [predict_proba] at hrun
    cases hpc : cfgA.per_class_optimization with
    | true =>
      rw [hpc] at hrun
      simp only [if_true, Option.some.injEq, Prod.mk.injEq] at hrun
      obtain ⟨hp, hn, ht⟩ := hrun
      subst hp; subst hn; subst ht
      refine ⟨by rw [hcfg]; rfl, rfl, by simp [perClassProba], ?_⟩
      intro row hrow
      simp only [perClassProba, List.mem_map] at hrow
      obtain ⟨i, _, hrow⟩ := hrow
      simp [← hrow]
    | false =>
      rw [hpc] at hrun
      simp only [Bool.false_eq_true, if_false, Option.some.injEq,
        Prod.mk.injEq] at hrun
      obtain ⟨hp, hn, ht⟩ := hrun
      subst hp; subst hn; subst ht
      refine ⟨by rw [hcfg]; rfl, rfl, by simp [globalModeProba], ?_⟩
      intro row hrow
      simp only [globalModeProba, List.mem_map] at hrow
      obtain ⟨i, _, hrow⟩ := hrow
      simp [← hrow]

/-- The dataset of the fold-run witnesses: two proteins in two folds. -/
def wTpsDf : List RawRow :=
  [{ id := "p1", label := "A", split := "fold_0", ignore_in_eval := false },
   { id := "p2", label := "neg", split := "fold_1", ignore_in_eval := false }]

/-- The feature store of the fold-run witnesses. -/
def wFeatures : List (String × Emb) :=
  [("p1", [1]), ("p2", [2])]

/-- A concrete predictor universe for witnesses. -/
def wPredictEnv : PredictEnv Nat Nat where
  globalProba := fun _ _ _ _ => 1 / 2
  binProba := fun _ _ _ => 0

theorem class_ordering_authoritative_witness :
    (["A", "B"] : List String) = wFitEnv.binClasses wCfg.class_names
      ((innerMergeFeatures
        (rebalanceTrain (fun l n => l.take n) id wCfg (foldTrainAgg 2 0 []))
        []).map (·.1.labels)) ∧
    ([] : List (List ℚ)).length = (foldTestAgg 0 []).length := by
  have hrun : runFoldGlobal wFitEnv wPredictEnv (fun l n => l.take n) id []
      wCfg [] 2 0 [] = some ([], ["A", "B"], []) := by
    norm_num [runFoldGlobal, foldTrainAgg, foldTestAgg, aggTrainPart,
      aggTestPart, trainPart, testPart, aggregateById, applyIgnoreOverride,
      normalizeAgg, rebalanceTrain, negsProportion, trainDfNegAll,
      innerMergeFeatures, fitCoreGlobal, fitTarget, fitX, cfgAfterFit,
      wFitEnv, wCfg, predict_proba, testEmbs, locByIdOrder, globalModeProba,
      wPredictEnv, fallbackNJobs, alookup]
  have h := class_ordering_authoritative wFitEnv wPredictEnv
    (fun l n => l.take n) id [] wCfg [] 2 0 [] [] ["A", "B"] [] hrun
  exact ⟨h.1, h.2.2.1⟩

/-! ## C3: label normalization -/

theorem normalizeLabelSet_spec (x : Finset String) :
    ((x ∩ sentinelLabels).Nonempty → normalizeLabelSet x = x) ∧
    (¬(x ∩ sentinelLabels).Nonempty →
      normalizeLabelSet x = x ∪ {"is_TPS"}) ∧
    x ⊆ normalizeLabelSet x := by
  unfold normalizeLabelSet
  by_cases h : (x ∩ sentinelLabels).card ≠ 0
  · have hne : (x ∩ sentinelLabels).Nonempty :=
      Finset.card_pos.mp (Nat.pos_of_ne_zero h)
    rw [if_pos h]
    exact ⟨fun _ => rfl, fun hc => absurd hne hc, Finset.Subset.refl x⟩
  · have hemp : ¬(x ∩ sentinelLabels).Nonempty := by
      rw [not_ne_iff, Finset.card_eq_zero] at h
      rw [h]
      exact Finset.not_nonempty_empty
    rw [if_neg h]
    exact ⟨fun hc => absurd hc hemp, fun _ => rfl, Finset.subset_union_left⟩

/-- Claim C3, label normalization: every row of the normalized training and test partitions of every fold
arises from an aggregated row by label normalization: the label set is
unchanged when it meets the sentinel labels, is the original set united
with `{"is_TPS"}` otherwise, and in both cases loses no original label. -/
theorem label_normalization (K f : Nat) (df : List RawRow) :
    (∀ row ∈ foldTrainAgg K f df, ∃ r0 ∈ aggTrainPart K f df,
      row.id = r0.id ∧
      ((r0.labels ∩ sentinelLabels).Nonempty → row.labels = r0.labels) ∧
      (¬(r0.labels ∩ sentinelLabels).Nonempty →
        row.labels = r0.labels ∪ {"is_TPS"}) ∧
      r0.labels ⊆ row.labels) ∧
    (∀ row ∈ foldTestAgg f df, ∃ r0 ∈ aggTestPart f df,
      row.id = r0.id ∧
      ((r0.labels ∩ sentinelLabels).Nonempty → row.labels = r0.labels) ∧
      (¬(r0.labels ∩ sentinelLabels).Nonempty →
        row.labels = r0.labels ∪ {"is_TPS"}) ∧
      r0.labels ⊆ row.labels) := by
  constructor
  · intro row hrow
    unfold foldTrainAgg normalizeAgg at hrow
    obtain ⟨r0, hr0, hrow⟩ := List.mem_map.mp hrow
    refine ⟨r0, hr0, ?_⟩
    obtain ⟨h1, h2, h3⟩ := normalizeLabelSet_spec r0.labels
    subst hrow
    exact ⟨rfl, fun h => h1 h, fun h => h2 h, h3⟩
  · intro row hrow
    unfold foldTestAgg normalizeAgg at hrow
    obtain ⟨r0, hr0, hrow⟩ := List.mem_map.mp hrow
    refine ⟨r0, hr0, ?_⟩
    obtain ⟨h1, h2, h3⟩ := normalizeLabelSet_spec r0.labels
    subst hrow
    exact ⟨rfl, fun h => h1 h, fun h => h2 h, h3⟩

theorem label_normalization_witness :
    ∃ r0 ∈ aggTrainPart 2 0 wTpsDf,
      ({ id := "p2", labels := {"neg", "is_TPS"} } : AggRow).id = r0.id ∧
      ((r0.labels ∩ sentinelLabels).Nonempty →
        ({"neg", "is_TPS"} : Finset String) = r0.labels) ∧
      (¬(r0.labels ∩ sentinelLabels).Nonempty →
        ({"neg", "is_TPS"} : Finset String) = r0.labels ∪ {"is_TPS"}) ∧
      r0.labels ⊆ ({"neg", "is_TPS"} : Finset String) := by
  exact (label_normalization 2 0 wTpsDf).1
    { id := "p2", labels := {"neg", "is_TPS"} } (by decide)

/-! ## C2: fold partitioning -/

theorem mem_trnFolds (K f : Nat) (s : String) :
    s ∈ trnFolds K f ↔ ∃ i, i < K ∧ i ≠ f ∧ foldName i = s := by
  unfold trnFolds getFolds
  simp only [List.mem_map, List.mem_filter, List.mem_range]
  constructor
  · rintro ⟨i, ⟨hiK, hif⟩, hname⟩
    exact ⟨i, hiK, by simpa using hif, hname⟩
  · rintro ⟨i, hiK, hif, hname⟩
    exact ⟨i, ⟨hiK, by simpa using hif⟩, hname⟩

/-- Claim C2, fold partitioning: per fold, the training partition holds exactly the
rows whose fold descriptor differs from the test fold's name, the test
partition exactly those matching it, the two are disjoint, and every
row's id lands in the test partition of exactly one fold.  The fold-name
map `i ↦ f"fold_{i}"` is injective on `0..K-1`; this fact enters as the
decidable hypothesis `hinj`. -/
theorem fold_partitioning (K f : Nat) (tps_df : List RawRow) (hf : f < K)
    (hvalid : ∀ r ∈ tps_df, ∃ i ∈ List.range K, r.split = foldName i)
    (hinj : ∀ i ∈ List.range K, ∀ j ∈ List.range K,
      foldName i = foldName j → i = j)
    (hid : ∀ r ∈ tps_df, ∀ r' ∈ tps_df, r.id = r'.id → r.split = r'.split) :
    (∀ r ∈ tps_df, (r ∈ trainPart K f tps_df ↔ r.split ≠ foldName f)) ∧
    (∀ r ∈ tps_df, (r ∈ testPart f tps_df ↔ r.split = foldName f)) ∧
    (∀ r, ¬(r ∈ trainPart K f tps_df ∧ r ∈ testPart f tps_df)) ∧
    (∀ r ∈ tps_df, ∃! i, i < K ∧ r.id ∈ (testPart i tps_df).map (·.id)) := by
  have hinj' : ∀ i j, i < K → j < K → foldName i = foldName j → i = j := by
    intro i j hi hj
    exact hinj i (List.mem_range.mpr hi) j (List.mem_range.mpr hj)
  have hmem_train : ∀ r, r ∈ trainPart K f tps_df ↔
      r ∈ tps_df ∧ r.split ∈ trnFolds K f := by
    intro r
    unfold trainPart
    simp [List.mem_filter]
  have hmem_test : ∀ g r, r ∈ testPart g tps_df ↔
      r ∈ tps_df ∧ r.split = foldName g := by
    intro g r
    unfold testPart
    simp [List.mem_filter]
  refine ⟨?_, ?_, ?_, ?_⟩
  · intro r hr
    obtain ⟨i, hiK, hsplit⟩ := hvalid r hr
    rw [List.mem_range] at hiK
    rw [hmem_train r]
    constructor
    · rintro ⟨-, htrn⟩ heq
      obtain ⟨j, hjK, hjf, hjname⟩ := (mem_trnFolds K f r.split).mp htrn
      exact hjf (hinj' j f hjK hf (hjname.trans heq))
    · intro hne
      refine ⟨hr, (mem_trnFolds K f r.split).mpr ⟨i, hiK, ?_, hsplit.symm⟩⟩
      intro hif
      exact hne (by rw [hsplit, hif])
  · intro r hr
    rw [hmem_test f r]
    exact ⟨fun h => h.2, fun h => ⟨hr, h⟩⟩
  · rintro r ⟨htrn, htst⟩
    obtain ⟨-, htrn'⟩ := (hmem_train r).mp htrn
    obtain ⟨-, htst'⟩ := (hmem_test f r).mp htst
    obtain ⟨j, hjK, hjf, hjname⟩ := (mem_trnFolds K f r.split).mp htrn'
    exact hjf (hinj' j f hjK hf (hjname.trans htst'))
  · intro r hr
    obtain ⟨i, hiK, hsplit⟩ := hvalid r hr
    rw [List.mem_range] at hiK
    refine ⟨i, ⟨hiK, ?_⟩, ?_⟩
    · exact List.mem_map.mpr ⟨r, (hmem_test i r).mpr ⟨hr, hsplit⟩, rfl⟩
    · rintro j ⟨hjK, hjmem⟩
      obtain ⟨r', hr', hrid⟩ := List.mem_map.mp hjmem
      obtain ⟨hr'df, hr'split⟩ := (hmem_test j r').mp hr'
      have := hid r' hr'df r hr hrid
      rw [hr'split, hsplit] at this
      exact hinj' j i hjK hiK this

theorem fold_partitioning_witness :
    RawRow.mk "p2" "neg" "fold_1" false ∈ trainPart 2 0 wTpsDf ∧
    RawRow.mk "p1" "A" "fold_0" false ∈ testPart 0 wTpsDf ∧
    ¬(RawRow.mk "p1" "A" "fold_0" false ∈ trainPart 2 0 wTpsDf) := by
  have h := fold_partitioning 2 0 wTpsDf (by decide) (by decide) (by decide)
    (by decide)
  refine ⟨?_, ?_, ?_⟩
  · exact (h.1 _ (by decide)).mpr (by decide)
  · exact (h.2.1 _ (by decide)).mpr (by decide)
  · intro hmem
    exact h.2.2.1 _ ⟨hmem, (h.2.1 _ (by decide)).mpr (by decide)⟩

/-! ## String lemmas for the per-class machinery -/

theorem containsSub_of_pre (needle hay : List Char)
    (h : needle.isPrefixOf hay = true) : containsSub needle hay = true := by
  cases hay with
  | nil =>
    rw [List.isPrefixOf_iff_prefix] at h
    simp only [List.prefix_nil] at h
    subst h
    rfl
  | cons c rest =>
    unfold containsSub
    rw [h]
    rfl

theorem pyIn_of_prefixedBy (class_name s : String)
    (h : prefixedBy (class_name ++ "_") s = true) : pyIn class_name s = true := by
  unfold prefixedBy at h
  unfold pyIn
  apply containsSub_of_pre
  rw [List.isPrefixOf_iff_prefix] at h ⊢
  have hdata : (class_name ++ "_").data = class_name.data ++ "_".data := rfl
  rw [hdata] at h
  exact (List.prefix_append class_name.data "_".data).trans h

theorem replaceFuel_of_not_contains (pat rep : List Char) (fuel : Nat)
    (l : List Char) (h : containsSub pat l = false) :
    replaceFuel pat rep fuel l = l := by
  induction fuel generalizing l with
  | zero => rfl
  | succ fuel ih =>
    cases l with
    | nil => rfl
    | cons c rest =>
      unfold containsSub at h
      rw [Bool.or_eq_false_iff] at h
      unfold replaceFuel
      simp only [h.1, Bool.false_eq_true, if_false]
      rw [ih rest h.2]

theorem replaceFuel_append_left (p0 : Char) (pr rep tail : List Char)
    (fuel : Nat) :
    replaceFuel (p0 :: pr) rep (fuel + 1) ((p0 :: pr) ++ tail) =
      rep ++ replaceFuel (p0 :: pr) rep fuel tail := by
  have hpre : (p0 :: pr).isPrefixOf (p0 :: (pr ++ tail)) = true := by
    rw [List.isPrefixOf_iff_prefix]
    exact List.prefix_append (p0 :: pr) tail
  have hstep : replaceFuel (p0 :: pr) rep (fuel + 1) ((p0 :: pr) ++ tail) =
      if (p0 :: pr).isPrefixOf (p0 :: (pr ++ tail)) = true then
        rep ++ replaceFuel (p0 :: pr) rep fuel
          ((p0 :: (pr ++ tail)).drop (p0 :: pr).length)
      else p0 :: replaceFuel (p0 :: pr) rep fuel (pr ++ tail) := rfl
  rw [hstep, if_pos hpre]
  have hdrop : List.drop (p0 :: pr).length (p0 :: (pr ++ tail)) = tail :=
    List.drop_left (p0 :: pr) tail
  rw [hdrop]

/-! ## C8: per-class hyperparameter derivation -/

/-- The claim's parameter derivation, written from the spec's words: filter
the global dictionary to keys prefixed with `{class_name}_` and strip
exactly that prefix. -/
def specPerClassParams (globalParams : List (String × PVal))
    (class_name : String) : List (String × PVal) :=
  (globalParams.filter (fun kv => prefixedBy (class_name ++ "_") kv.1)).map
    (fun kv =>
      (String.mk (kv.1.data.drop (class_name ++ "_").data.length), kv.2))

/-- Refutation of C8 as stated: for class name `"n"` and the class-specific
parameter key `"n_n_jobs"`, the source's `str.replace` removes both
occurrences of `"n_"`, yielding parameter name `"jobs"`, while stripping
the prefix alone would yield `"n_jobs"`. -/
theorem per_class_params_cex :
    perClassModelParams [("n_n_jobs", PVal.int 4)] "n" =
      [("jobs", PVal.int 4)] ∧
    specPerClassParams [("n_n_jobs", PVal.int 4)] "n" =
      [("n_jobs", PVal.int 4)] ∧
    perClassModelParams [("n_n_jobs", PVal.int 4)] "n" ≠
      specPerClassParams [("n_n_jobs", PVal.int 4)] "n" := by
  refine ⟨by decide, by decide, by decide⟩

/-- Claim C8 as amended, per-class hyperparameter derivation: the classifier for class `c` is constructed from the
`c_`-prefix-filtered global parameters with every occurrence of the
substring `"{c}_"` removed from the key (Python `str.replace`); whenever
`"{c}_"` does not reoccur after the prefix, this coincides with stripping
the prefix, and in all cases every constructed parameter stems from a
`c_`-prefixed global parameter (non-prefixed parameters are not passed). -/
theorem per_class_params_derivation (globalParams : List (String × PVal))
    (class_name : String) :
    ((∀ kv ∈ get_model_specific_params globalParams class_name,
        pyIn (class_name ++ "_")
          (String.mk (kv.1.data.drop (class_name ++ "_").data.length)) = false) →
      perClassModelParams globalParams class_name =
        specPerClassParams globalParams class_name) ∧
    (∀ kv ∈ perClassModelParams globalParams class_name,
      ∃ kv0 ∈ globalParams,
        prefixedBy (class_name ++ "_") kv0.1 = true ∧ kv.2 = kv0.2) := by
  constructor
  · intro hone
    unfold perClassModelParams specPerClassParams get_model_specific_params
    apply List.map_congr_left
    intro kv hkv
    have hpre : prefixedBy (class_name ++ "_") kv.1 = true :=
      (List.mem_filter.mp hkv).2
    unfold prefixedBy at hpre
    rw [List.isPrefixOf_iff_prefix] at hpre
    obtain ⟨tail, htail⟩ := hpre
    have hkey : kv.1 = String.mk ((class_name ++ "_").data ++ tail) := by
      rw [htail]
    have hpat : ∃ p0 pr, (class_name ++ "_").data = p0 :: pr := by
      have : (class_name ++ "_").data = class_name.data ++ ['_'] := rfl
      cases hc : class_name.data with
      | nil => exact ⟨'_', [], by rw [this, hc]; rfl⟩
      | cons c0 cr => exact ⟨c0, cr ++ ['_'], by rw [this, hc]; rfl⟩
    obtain ⟨p0, pr, hp⟩ := hpat
    have hcon : containsSub (class_name ++ "_").data tail = false := by
      have := hone kv (by
        unfold get_model_specific_params
        exact hkv)
      unfold pyIn at this
      rw [hkey] at this
      simp only [List.drop_left] at this
      exact this
    have hfinal : replaceFuel (class_name ++ "_").data []
        ((class_name ++ "_").data ++ tail).length
        ((class_name ++ "_").data ++ tail) = tail := by
      rw [hp] at hcon ⊢
      obtain ⟨fuel, hfuel⟩ : ∃ fuel,
          ((p0 :: pr) ++ tail).length = fuel + 1 := by
        refine ⟨((p0 :: pr) ++ tail).length - 1, ?_⟩
        simp [List.length_append]
      rw [hfuel, replaceFuel_append_left p0 pr [] tail fuel,
        replaceFuel_of_not_contains _ _ _ _ hcon]
      rfl
    have hrepl : pyReplace kv.1 (class_name ++ "_") "" = String.mk tail := by
      rw [hkey]
      show String.mk (replaceFuel (class_name ++ "_").data []
        ((class_name ++ "_").data ++ tail).length
        ((class_name ++ "_").data ++ tail)) = String.mk tail
      rw [hfinal]
    rw [hrepl, hkey]
    simp only [List.drop_left]
  · intro kv hkv
    unfold perClassModelParams get_model_specific_params at hkv
    rw [List.mem_map] at hkv
    obtain ⟨kv0, hkv0, hkv0eq⟩ := hkv
    obtain ⟨hmem0, hpre0⟩ := List.mem_filter.mp hkv0
    refine ⟨kv0, hmem0, hpre0, ?_⟩
    rw [← hkv0eq]

theorem per_class_params_derivation_witness :
    perClassModelParams [("A_max_depth", PVal.int 3), ("n_jobs", PVal.int 8)]
      "A" =
    specPerClassParams [("A_max_depth", PVal.int 3), ("n_jobs", PVal.int 8)]
      "A" :=
  (per_class_params_derivation
    [("A_max_depth", PVal.int 3), ("n_jobs", PVal.int 8)] "A").1 (by decide)

/-! ## C4: per-class mode skip -/

theorem alookup_cons_self {α : Type _} (k : String) (v : α)
    (rest : List (String × α)) : alookup k ((k, v) :: rest) = some v := by
  simp [alookup]

theorem yBinary_sum_pos (class_name : String) (train_data : List (AggRow × Emb)) :
    0 < (yBinary class_name train_data).sum ↔
      ∃ r ∈ train_data, class_name ∈ r.1.labels := by
  induction train_data with
  | nil => simp [yBinary]
  | cons r rest ih =>
    unfold yBinary at ih ⊢
    by_cases h : class_name ∈ r.1.labels
    · simp [h]
    · simp only [List.map_cons, List.sum_cons, if_neg h, Nat.zero_add]
      rw [ih]
      simp [h]

theorem present_iff_prefixed_key (globalParams : List (String × PVal))
    (class_name : String) :
    isClassSpecificParamPresent globalParams class_name = true ↔
      ∃ kv ∈ globalParams, prefixedBy (class_name ++ "_") kv.1 = true := by
  unfold isClassSpecificParamPresent
  rw [List.any_eq_true]
  constructor
  · rintro ⟨kv, hkv, -⟩
    obtain ⟨h1, h2⟩ := List.mem_filter.mp hkv
    exact ⟨kv, h1, h2⟩
  · rintro ⟨kv, hkv, hpre⟩
    refine ⟨kv, List.mem_filter.mpr ⟨hkv, hpre⟩, pyIn_of_prefixedBy _ _ hpre⟩

/-- Claim C4, per-class mode skip: starting from an empty classifier map, a
classifier for `class_name` is stored by `fit_core` exactly when a
`class_name`-specific hyperparameter key exists in the global dictionary
and some training example is positive for that class; at prediction time
every row of the output column of a class without a stored classifier is
`0`. -/
theorem per_class_skip {C B : Type} (env : PerClassFitEnv B)
    (penv : PredictEnv C B) (globalParams : List (String × PVal))
    (class_name : String) (train_data : List (AggRow × Emb))
    (model : PredictModel C B) :
    ((alookup class_name
        (fitCorePerClass env globalParams class_name train_data [])).isSome ↔
      ((∃ kv ∈ globalParams, prefixedBy (class_name ++ "_") kv.1 = true) ∧
        ∃ r ∈ train_data, class_name ∈ r.1.labels)) ∧
    (∀ (j : Nat) (cn : String), model.cfg.class_names[j]? = some cn →
      alookup cn model.class_2_classifier = none →
      ∀ (embs : List Emb) (n i : Nat), i < n →
        ((perClassProba penv model embs n)[i]?.bind
          (fun row : List ℚ => row[j]?)) = some 0) := by
  constructor
  · unfold fitCorePerClass
    by_cases hpres : isClassSpecificParamPresent globalParams class_name
    · rw [if_pos hpres]
      by_cases hsum : 0 < (yBinary class_name train_data).sum
      · rw [if_pos hsum, alookup_cons_self]
        simp only [Option.isSome_some, true_iff]
        exact ⟨(present_iff_prefixed_key globalParams class_name).mp hpres,
          (yBinary_sum_pos class_name train_data).mp hsum⟩
      · rw [if_neg hsum]
        rw [show alookup class_name ([] : List (String × B)) = none from rfl]
        simp only [Option.isSome_none, Bool.false_eq_true, false_iff]
        rintro ⟨-, hpos⟩
        exact hsum ((yBinary_sum_pos class_name train_data).mpr hpos)
    · rw [if_neg hpres]
      rw [show alookup class_name ([] : List (String × B)) = none from rfl]
      simp only [Option.isSome_none, Bool.false_eq_true, false_iff]
      rintro ⟨hkey, -⟩
      exact hpres ((present_iff_prefixed_key globalParams class_name).mpr hkey)
  · intro j cn hj hnone embs n i hi
    unfold perClassProba
    rw [List.getElem?_map, List.getElem?_range hi]
    simp only [Option.map_some', Option.some_bind]
    rw [List.getElem?_map, hj]
    simp only [Option.map_some', hnone]

/-- Data for the C4 witness: one positive training example for class `"A"`
and one `"A"`-specific hyperparameter. -/
def wPerClassEnv : PerClassFitEnv Nat where
  fitBin := fun _ _ _ => 5

/-- A fitted per-class model with no stored classifiers for the C4 witness. -/
def wPerClassModel : PredictModel Nat Nat :=
  { cfg := { wCfg with per_class_optimization := true }
    features_df := []
    classifier := 0
    class_2_classifier := [] }

theorem per_class_skip_witness :
    (alookup "A"
      (fitCorePerClass wPerClassEnv [("A_max_depth", PVal.int 3)] "A"
        [({ id := "p1", labels := {"A"} }, [1])] [])).isSome ∧
    ((perClassProba wPredictEnv wPerClassModel [] 1)[0]?.bind
      (fun row : List ℚ => row[0]?)) = some 0 := by
  have h := per_class_skip wPerClassEnv wPredictEnv
    [("A_max_depth", PVal.int 3)] "A"
    [({ id := "p1", labels := {"A"} }, [1])] wPerClassModel
  constructor
  · exact h.1.mpr (by decide)
  · exact h.2 0 "A" (by decide) (by decide) [] 1 0 (by decide)

/-! ## C10: prediction row alignment -/

theorem filter_key_eq_nil {α : Type _} (k : String) (l : List (String × α))
    (h : k ∉ l.map (·.1)) :
    l.filter (fun p => decide (p.1 = k)) = [] := by
  rw [List.filter_eq_nil_iff]
  intro p hp
  simp only [decide_eq_true_eq]
  intro hpk
  exact h (List.mem_map.mpr ⟨p, hp, hpk⟩)

theorem filter_key_of_nodup {α : Type _} (l : List (String × α))
    (hnd : (l.map (·.1)).Nodup) (k : String) :
    l.filter (fun p => decide (p.1 = k)) =
      (match alookup k l with
       | some v => [(k, v)]
       | none => ([] : List (String × α))) := by
  induction l with
  | nil => rfl
  | cons kv rest ih =>
    rw [List.map_cons] at hnd
    obtain ⟨hhd, hrest⟩ := List.nodup_cons.mp hnd
    by_cases hk : kv.1 = k
    · subst hk
      have hlk : alookup kv.1 (kv :: rest) = some kv.2 := by
        simp [alookup]
      rw [hlk, List.filter_cons_of_pos (by simp)]
      rw [filter_key_eq_nil kv.1 rest hhd]
    · have hlk : alookup k (kv :: rest) = alookup k rest := by
        simp [alookup, hk]
      rw [hlk, List.filter_cons_of_neg (by simp [hk])]
      exact ih hrest

theorem mergedRows_eq (val_df : List AggRow) (features_df : List (String × Emb))
    (hnd : (features_df.map (·.1)).Nodup) :
    mergedRows val_df features_df =
      val_df.map (fun r => (r.id, alookup r.id features_df)) := by
  unfold mergedRows
  induction val_df with
  | nil => rfl
  | cons r rest ih =>
    rw [List.flatMap_cons, ih, List.map_cons]
    have hbody : (let hits := features_df.filter (fun p => decide (p.1 = r.id));
        if hits.isEmpty then [(r.id, none)]
        else hits.map (fun p => (r.id, some p.2)))
        = [(r.id, alookup r.id features_df)] := by
      simp only
      rw [filter_key_of_nodup features_df hnd r.id]
      cases h : alookup r.id features_df with
      | none => simp
      | some v => simp
    rw [hbody, List.singleton_append]

theorem tbl_filter_key (allIds : List String) (g : String → Emb)
    (hnd : allIds.Nodup) (x : String) (hx : x ∈ allIds) :
    (allIds.map (fun i => (i, g i))).filter (fun p => decide (p.1 = x)) =
      [(x, g x)] := by
  induction allIds with
  | nil => cases hx
  | cons i rest ih =>
    obtain ⟨hhd, hrest⟩ := List.nodup_cons.mp hnd
    rw [List.map_cons]
    by_cases hix : i = x
    · subst hix
      rw [List.filter_cons_of_pos (by simp)]
      have hnm : i ∉ (rest.map (fun j => (j, g j))).map (·.1) := by
        simpa using hhd
      rw [filter_key_eq_nil i _ hnm]
    · rw [List.filter_cons_of_neg (by simp [hix])]
      rcases List.mem_cons.mp hx with h | h
      · exact absurd h.symm hix
      · exact ih hrest h

theorem flatMap_filter_key (allIds : List String) (g : String → Emb)
    (hnd : allIds.Nodup) :
    ∀ (ids : List String), (∀ x ∈ ids, x ∈ allIds) →
      ids.flatMap (fun x =>
        (allIds.map (fun i => (i, g i))).filter (fun p => decide (p.1 = x))) =
        ids.map (fun x => (x, g x)) := by
  intro ids hsub
  induction ids with
  | nil => rfl
  | cons x rest ih =>
    rw [List.flatMap_cons,
      tbl_filter_key allIds g hnd x (hsub x (List.mem_cons_self x rest)),
      List.map_cons, List.singleton_append,
      ih (fun y hy => hsub y (List.mem_cons_of_mem _ hy))]

theorem testEmbs_eq (val_df : List AggRow) (features_df : List (String × Emb))
    (hval : (val_df.map (·.id)).Nodup)
    (hfeat : (features_df.map (·.1)).Nodup) :
    testEmbs val_df features_df =
      val_df.map
        (fun r => (alookup r.id features_df).getD (averageEmb features_df)) := by
  unfold testEmbs filledRows locByIdOrder
  rw [mergedRows_eq val_df features_df hfeat, List.map_map]
  have hcomp : val_df.map
      ((fun p : String × Option Emb => (p.1, p.2.getD (averageEmb features_df)))
        ∘ (fun r : AggRow => (r.id, alookup r.id features_df)))
      = (val_df.map (·.id)).map
        (fun i => (i, (alookup i features_df).getD (averageEmb features_df))) := by
    rw [List.map_map]
    rfl
  rw [hcomp]
  rw [flatMap_filter_key (val_df.map (·.id))
    (fun i => (alookup i features_df).getD (averageEmb features_df)) hval
    (val_df.map (·.id)) (fun _ h => h)]
  rw [List.map_map, List.map_map]
  rfl

/-- Claim C10, prediction row alignment: for DataFrame inputs with unique ids, the
embedding matrix produced by the merge-fill-reindex steps has one row per
input row, row `i` being the stored embedding of the id of input row `i`
when present and the mean embedding otherwise, and the probability matrix
of `predict_proba` has exactly one row per input row. -/
theorem prediction_row_alignment {C B : Type} (penv : PredictEnv C B)
    (model : PredictModel C B) (val_df : List AggRow)
    (hval : (val_df.map (·.id)).Nodup)
    (hfeat : (model.features_df.map (·.1)).Nodup) :
    (testEmbs val_df model.features_df).length = val_df.length ∧
    (∀ (i : Nat) (r : AggRow), val_df[i]? = some r →
      (testEmbs val_df model.features_df)[i]? =
        some ((alookup r.id model.features_df).getD
          (averageEmb model.features_df))) ∧
    (∀ mat, (predict_proba penv model (PredictInput.table val_df)).1 =
        Except.ok mat → mat.length = val_df.length) := by
  have heq := testEmbs_eq val_df model.features_df hval hfeat
  refine ⟨by rw [heq]; simp, ?_, ?_⟩
  · intro i r hir
    rw [heq, List.getElem?_map, hir]
    rfl
  · intro mat hmat
    have hred : predict_proba penv model (PredictInput.table val_df) =
        (if model.cfg.per_class_optimization then
          (Except.ok (perClassProba penv model
            (testEmbs val_df model.features_df) val_df.length), model)
        else
          (Except.ok (globalModeProba penv model
            (testEmbs val_df model.features_df) val_df.length), model)) := rfl
    rw [hred] at hmat
    by_cases hpc : model.cfg.per_class_optimization
    · rw [if_pos hpc] at hmat
      simp only [Except.ok.injEq] at hmat
      rw [← hmat]
      simp [perClassProba]
    · rw [if_neg hpc] at hmat
      simp only [Except.ok.injEq] at hmat
      rw [← hmat]
      simp [globalModeProba]

/-- The validation table of the C10 witness: `"px"` has no stored
embedding. -/
def wValDf : List AggRow :=
  [{ id := "p1", labels := {"A"} }, { id := "px", labels := {"B"} }]

/-- The model whose feature store is `wFeatures`, for the C10 witness. -/
def wAlignModel : PredictModel Nat Nat :=
  { cfg := wCfg
    features_df := wFeatures
    classifier := 0
    class_2_classifier := [] }

theorem prediction_row_alignment_witness :
    (testEmbs wValDf wAlignModel.features_df).length = wValDf.length ∧
    (testEmbs wValDf wAlignModel.features_df)[1]? =
      some ((alookup "px" wAlignModel.features_df).getD
        (averageEmb wAlignModel.features_df)) := by
  have h := prediction_row_alignment wPredictEnv wAlignModel wValDf
    (by decide) (by decide)
  exact ⟨h.1, h.2.1 1 { id := "px", labels := {"B"} } (by decide)⟩

/-! ## C9: predict_proba input-type contract -/

theorem containsSub_append_mid (needle pre post : List Char) :
    containsSub needle (pre ++ (needle ++ post)) = true := by
  induction pre with
  | nil =>
    apply containsSub_of_pre
    rw [List.isPrefixOf_iff_prefix]
    exact List.prefix_append needle post
  | cons c rest ih =>
    rw [List.cons_append]
    unfold containsSub
    rw [ih, Bool.or_true]

theorem pyIn_predictTypeErrMsg (t : String) :
    pyIn t (predictTypeErrMsg t) = true := by
  unfold pyIn predictTypeErrMsg
  have hdata : ("Got " ++ t ++ " as input to predict_proba function, " ++
      "but only pd.DataFrame | np.ndarray are supported").data =
      "Got ".data ++ (t.data ++ (" as input to predict_proba function, ".data ++
        "but only pd.DataFrame | np.ndarray are supported".data)) := by
    simp only [String.data_append, List.append_assoc]
  rw [hdata]
  exact containsSub_append_mid t.data "Got ".data _

/-- Claim C9, predict_proba input-type contract: the post-call model state
always equals the pre-call state; the call fails exactly on inputs that
are neither a DataFrame nor an ndarray, with a `NotImplementedError`
message embedding the offending type's name; on both supported input
kinds it returns a dense matrix with one row per input row and one column
per configured class name. -/
theorem perClassProba_shape {C B : Type} (penv : PredictEnv C B)
    (model : PredictModel C B) (embs : List Emb) (n : Nat) :
    (perClassProba penv model embs n).length = n ∧
    ∀ row ∈ perClassProba penv model embs n,
      row.length = model.cfg.class_names.length := by
  refine ⟨by simp [perClassProba], ?_⟩
  intro row hrow
  simp only [perClassProba, List.mem_map] at hrow
  obtain ⟨i, -, hrow⟩ := hrow
  simp [← hrow]

theorem globalModeProba_shape {C B : Type} (penv : PredictEnv C B)
    (model : PredictModel C B) (embs : List Emb) (n : Nat) :
    (globalModeProba penv model embs n).length = n ∧
    ∀ row ∈ globalModeProba penv model embs n,
      row.length = model.cfg.class_names.length := by
  refine ⟨by simp [globalModeProba], ?_⟩
  intro row hrow
  simp only [globalModeProba, List.mem_map] at hrow
  obtain ⟨i, -, hrow⟩ := hrow
  simp [← hrow]

/-- Claim C9, predict_proba input-type contract: the post-call model state
always equals the pre-call state; the call fails exactly on inputs that
are neither a DataFrame nor an ndarray, with a `NotImplementedError`
message embedding the offending type's name; on both supported input
kinds it returns a dense matrix with one row per input row and one column
per configured class name. -/
theorem predict_input_contract {C B : Type} (penv : PredictEnv C B)
    (model : PredictModel C B) (inp : PredictInput) :
    ((predict_proba penv model inp).2 = model) ∧
    ((∃ e, (predict_proba penv model inp).1 = Except.error e) ↔
      ∃ t, inp = PredictInput.invalid t) ∧
    (∀ t, inp = PredictInput.invalid t →
      (predict_proba penv model inp).1 = Except.error (predictTypeErrMsg t) ∧
      pyIn t (predictTypeErrMsg t) = true) ∧
    (∀ v, inp = PredictInput.table v → ∃ mat,
      (predict_proba penv model inp).1 = Except.ok mat ∧
      mat.length = v.length ∧
      ∀ row ∈ mat, row.length = model.cfg.class_names.length) ∧
    (∀ m, inp = PredictInput.matrix m → ∃ mat,
      (predict_proba penv model inp).1 = Except.ok mat ∧
      mat.length = m.length ∧
      ∀ row ∈ mat, row.length = model.cfg.class_names.length) := by
  cases inp with
  | invalid t =>
    refine ⟨rfl, ?_, ?_, ?_, ?_⟩
    · exact ⟨fun _ => ⟨t, rfl⟩, fun _ => ⟨predictTypeErrMsg t, rfl⟩⟩
    · rintro t' ht'
      cases ht'
      exact ⟨rfl, pyIn_predictTypeErrMsg t⟩
    · rintro v ⟨⟩
    · rintro m ⟨⟩
  | table v =>
    have hred : predict_proba penv model (PredictInput.table v) =
        (if model.cfg.per_class_optimization then
          (Except.ok (perClassProba penv model
            (testEmbs v model.features_df) v.length), model)
        else
          (Except.ok (globalModeProba penv model
            (testEmbs v model.features_df) v.length), model)) := rfl
    by_cases hpc : model.cfg.per_class_optimization
    · rw [hred, if_pos hpc]
      refine ⟨rfl, ?_, ?_, ?_, ?_⟩
      · constructor
        · rintro ⟨e, he⟩
          cases he
        · rintro ⟨t0, ht0⟩
          cases ht0
      · rintro t ⟨⟩
      · rintro v' hv'
        cases hv'
        exact ⟨_, rfl, (perClassProba_shape penv model _ _).1,
          (perClassProba_shape penv model _ _).2⟩
      · rintro m ⟨⟩
    · rw [hred, if_neg hpc]
      refine ⟨rfl, ?_, ?_, ?_, ?_⟩
      · constructor
        · rintro ⟨e, he⟩
          cases he
        · rintro ⟨t0, ht0⟩
          cases ht0
      · rintro t ⟨⟩
      · rintro v' hv'
        cases hv'
        exact ⟨_, rfl, (globalModeProba_shape penv model _ _).1,
          (globalModeProba_shape penv model _ _).2⟩
      · rintro m ⟨⟩
  | matrix m =>
    have hred : predict_proba penv model (PredictInput.matrix m) =
        (if model.cfg.per_class_optimization then
          (Except.ok (perClassProba penv model m m.length), model)
        else
          (Except.ok (globalModeProba penv model m m.length), model)) := rfl
    by_cases hpc : model.cfg.per_class_optimization
    · rw [hred, if_pos hpc]
      refine ⟨rfl, ?_, ?_, ?_, ?_⟩
      · constructor
        · rintro ⟨e, he⟩
          cases he
        · rintro ⟨t0, ht0⟩
          cases ht0
      · rintro t ⟨⟩
      · rintro v' ⟨⟩
      · rintro m' hm'
        cases hm'
        exact ⟨_, rfl, (perClassProba_shape penv model _ _).1,
          (perClassProba_shape penv model _ _).2⟩
    · rw [hred, if_neg hpc]
      refine ⟨rfl, ?_, ?_, ?_, ?_⟩
      · constructor
        · rintro ⟨e, he⟩
          cases he
        · rintro ⟨t0, ht0⟩
          cases ht0
      · rintro t ⟨⟩
      · rintro v' ⟨⟩
      · rintro m' hm'
        cases hm'
        exact ⟨_, rfl, (globalModeProba_shape penv model _ _).1,
          (globalModeProba_shape penv model _ _).2⟩

theorem predict_input_contract_witness :
    (predict_proba wPredictEnv wAlignModel (PredictInput.invalid "dict")).1 =
      Except.error (predictTypeErrMsg "dict") ∧
    pyIn "dict" (predictTypeErrMsg "dict") = true ∧
    (predict_proba wPredictEnv wAlignModel (PredictInput.invalid "dict")).2 =
      wAlignModel := by
  have h := predict_input_contract wPredictEnv wAlignModel
    (PredictInput.invalid "dict")
  obtain ⟨herr, hin⟩ := h.2.2.1 "dict" rfl
  exact ⟨herr, hin, h.1⟩

/-! ## C1: class imbalance correction -/

theorem pos_add_neg_length (cfg : SklearnCfg) (train_df : List AggRow) :
    (trainDfPos cfg train_df).length + (trainDfNegAll cfg train_df).length =
      train_df.length := by
  unfold trainDfPos trainDfNegAll
  have hpred : (fun r : AggRow => decide (cfg.neg_val ∉ r.labels)) =
      (fun r : AggRow => !decide (cfg.neg_val ∈ r.labels)) := by
    funext r
    simp [decide_not]
  rw [hpred]
  have hperm := List.filter_append_perm
    (fun r : AggRow => decide (cfg.neg_val ∈ r.labels)) train_df
  have hlen := hperm.length_eq
  rw [List.length_append] at hlen
  omega

theorem length_nonzero_of_negsProp_pos (cfg : SklearnCfg)
    (train_df : List AggRow) (hp0 : 0 < cfg.max_train_negs_proportion)
    (hr : cfg.max_train_negs_proportion < negsProportion cfg train_df) :
    train_df.length ≠ 0 := by
  intro h0
  unfold negsProportion at hr
  rw [h0] at hr
  simp only [Nat.cast_zero, div_zero] at hr
  linarith

/-- Claim C1, class imbalance correction: when the training table's negative
proportion does not exceed the configured maximum it passes through
unmodified; when it does, the corrected table keeps every positive row (up
to the final shuffle), its negative rows are a without-replacement
subsample of the original negative rows of size
`int(P * p / (1 - p))` for `P` the positive-row count, and the corrected
negative proportion is at most the configured maximum.  `sample` and
`shuffle` are the random subsample/permutation collaborators with their
pandas contracts as hypotheses. -/
theorem imbalance_correction (cfg : SklearnCfg)
    (sample : List AggRow → Nat → List AggRow)
    (shuffle : List AggRow → List AggRow) (train_df : List AggRow)
    (hp0 : 0 < cfg.max_train_negs_proportion)
    (hp1 : cfg.max_train_negs_proportion < 1)
    (hnodup : (train_df.map (·.id)).Nodup)
    (hsample : ∀ (l : List AggRow) (n : Nat), n ≤ l.length →
      (sample l n).length = n ∧ sample l n <+~ l)
    (hshuffle : ∀ l : List AggRow, shuffle l ~ l) :
    (negsProportion cfg train_df ≤ cfg.max_train_negs_proportion →
      rebalanceTrain sample shuffle cfg train_df = train_df) ∧
    (cfg.max_train_negs_proportion < negsProportion cfg train_df →
      (trainDfPos cfg (rebalanceTrain sample shuffle cfg train_df) ~
        trainDfPos cfg train_df) ∧
      (trainDfNegAll cfg (rebalanceTrain sample shuffle cfg train_df) <+~
        trainDfNegAll cfg train_df) ∧
      (trainDfNegAll cfg (rebalanceTrain sample shuffle cfg train_df)).length =
        (pyInt (((trainDfPos cfg train_df).length : ℚ) *
          cfg.max_train_negs_proportion /
            (1 - cfg.max_train_negs_proportion))).toNat ∧
      negsProportion cfg (rebalanceTrain sample shuffle cfg train_df) ≤
        cfg.max_train_negs_proportion) := by
  constructor
  · intro hle
    unfold rebalanceTrain
    rw [if_neg (not_lt.mpr hle)]
  · intro hr
    have hT0 : train_df.length ≠ 0 :=
      length_nonzero_of_negsProp_pos cfg train_df hp0 hr
    have hTpos : (0 : ℚ) < (train_df.length : ℚ) := by
      exact_mod_cast Nat.pos_of_ne_zero hT0
    have hPN := pos_add_neg_length cfg train_df
    have hPNq : ((trainDfPos cfg train_df).length : ℚ) +
        ((trainDfNegAll cfg train_df).length : ℚ) = (train_df.length : ℚ) := by
      exact_mod_cast hPN
    have h1p : (0 : ℚ) < 1 - cfg.max_train_negs_proportion := by linarith
    have h1p' : (1 : ℚ) - cfg.max_train_negs_proportion ≠ 0 := ne_of_gt h1p
    have hnun : (nuniqueIds train_df : ℚ) = (train_df.length : ℚ) := by
      unfold nuniqueIds
      rw [List.dedup_eq_self.mpr hnodup, List.length_map]
    have hposc : positiveCount cfg train_df =
        ((trainDfPos cfg train_df).length : ℚ) := by
      unfold positiveCount negsProportion
      rw [hnun, mul_sub, mul_one, mul_comm,
        div_mul_cancel₀ _ (ne_of_gt hTpos)]
      linarith
    have hreq : requiredNegsCount cfg train_df =
        ((trainDfPos cfg train_df).length : ℚ) *
          cfg.max_train_negs_proportion /
            (1 - cfg.max_train_negs_proportion) := by
      unfold requiredNegsCount
      rw [hposc]
      field_simp
      ring
    have hreq0 : 0 ≤ requiredNegsCount cfg train_df := by
      rw [hreq]
      positivity
    have hpyInt : pyInt (requiredNegsCount cfg train_df) =
        ⌊requiredNegsCount cfg train_df⌋ := by
      unfold pyInt
      rw [if_pos hreq0]
    have hfl0 : 0 ≤ ⌊requiredNegsCount cfg train_df⌋ :=
      Int.floor_nonneg.mpr hreq0
    have hcast : (((pyInt (requiredNegsCount cfg train_df)).toNat : ℚ)) =
        ((⌊requiredNegsCount cfg train_df⌋ : ℤ) : ℚ) := by
      rw [hpyInt]
      norm_cast
      exact Int.toNat_of_nonneg hfl0
    have hnle : (((pyInt (requiredNegsCount cfg train_df)).toNat : ℚ)) ≤
        requiredNegsCount cfg train_df := by
      rw [hcast]
      exact Int.floor_le _
    have hrT : cfg.max_train_negs_proportion * (train_df.length : ℚ) <
        ((trainDfNegAll cfg train_df).length : ℚ) := by
      unfold negsProportion at hr
      exact (lt_div_iff₀ hTpos).mp hr
    have hreqltN : requiredNegsCount cfg train_df <
        ((trainDfNegAll cfg train_df).length : ℚ) := by
      rw [hreq, div_lt_iff₀ h1p]
      rw [← hPNq] at hrT
      nlinarith [hrT]
    have hnltN : (pyInt (requiredNegsCount cfg train_df)).toNat <
        (trainDfNegAll cfg train_df).length := by
      have := lt_of_le_of_lt hnle hreqltN
      exact_mod_cast this
    obtain ⟨hslen, hsub⟩ := hsample (trainDfNegAll cfg train_df)
      (pyInt (requiredNegsCount cfg train_df)).toNat (le_of_lt hnltN)
    have hout : rebalanceTrain sample shuffle cfg train_df =
        shuffle (trainDfPos cfg train_df ++
          sample (trainDfNegAll cfg train_df)
            (pyInt (requiredNegsCount cfg train_df)).toNat) := by
      unfold rebalanceTrain
      rw [if_pos hr]
    have hperm : rebalanceTrain sample shuffle cfg train_df ~
        trainDfPos cfg train_df ++
          sample (trainDfNegAll cfg train_df)
            (pyInt (requiredNegsCount cfg train_df)).toNat := by
      rw [hout]
      exact hshuffle _
    have hsampled_neg : ∀ a ∈ sample (trainDfNegAll cfg train_df)
        (pyInt (requiredNegsCount cfg train_df)).toNat,
        cfg.neg_val ∈ a.labels := by
      intro a ha
      have := hsub.subset ha
      exact of_decide_eq_true (List.mem_filter.mp this).2
    have hposfix : (trainDfPos cfg train_df).filter
        (fun r => decide (cfg.neg_val ∉ r.labels)) =
          trainDfPos cfg train_df := by
      rw [List.filter_eq_self]
      intro a ha
      exact (List.mem_filter.mp ha).2
    have hsnil : (sample (trainDfNegAll cfg train_df)
        (pyInt (requiredNegsCount cfg train_df)).toNat).filter
          (fun r => decide (cfg.neg_val ∉ r.labels)) = [] := by
      rw [List.filter_eq_nil_iff]
      intro a ha
      simp only [decide_eq_true_eq, Decidable.not_not]
      exact hsampled_neg a ha
    have hsfix : (sample (trainDfNegAll cfg train_df)
        (pyInt (requiredNegsCount cfg train_df)).toNat).filter
          (fun r => decide (cfg.neg_val ∈ r.labels)) =
        sample (trainDfNegAll cfg train_df)
          (pyInt (requiredNegsCount cfg train_df)).toNat := by
      rw [List.filter_eq_self]
      intro a ha
      simp only [decide_eq_true_eq]
      exact hsampled_neg a ha
    have hposnil : (trainDfPos cfg train_df).filter
        (fun r => decide (cfg.neg_val ∈ r.labels)) = [] := by
      rw [List.filter_eq_nil_iff]
      intro a ha
      simp only [decide_eq_true_eq]
      exact of_decide_eq_true (List.mem_filter.mp ha).2
    have hpos_out : trainDfPos cfg (rebalanceTrain sample shuffle cfg train_df)
        ~ trainDfPos cfg train_df := by
      have h1 := hperm.filter (fun r => decide (cfg.neg_val ∉ r.labels))
      have h2 : (trainDfPos cfg train_df ++
          sample (trainDfNegAll cfg train_df)
            (pyInt (requiredNegsCount cfg train_df)).toNat).filter
          (fun r => decide (cfg.neg_val ∉ r.labels)) =
          trainDfPos cfg train_df := by
        rw [List.filter_append, hposfix, hsnil, List.append_nil]
      rw [h2] at h1
      exact h1
    have hneg_out : trainDfNegAll cfg
        (rebalanceTrain sample shuffle cfg train_df) ~
          sample (trainDfNegAll cfg train_df)
            (pyInt (requiredNegsCount cfg train_df)).toNat := by
      have h1 := hperm.filter (fun r => decide (cfg.neg_val ∈ r.labels))
      have h2 : (trainDfPos cfg train_df ++
          sample (trainDfNegAll cfg train_df)
            (pyInt (requiredNegsCount cfg train_df)).toNat).filter
          (fun r => decide (cfg.neg_val ∈ r.labels)) =
          sample (trainDfNegAll cfg train_df)
            (pyInt (requiredNegsCount cfg train_df)).toNat := by
        rw [List.filter_append, hposnil, hsfix, List.nil_append]
      rw [h2] at h1
      exact h1
    have hneglen : (trainDfNegAll cfg
        (rebalanceTrain sample shuffle cfg train_df)).length =
          (pyInt (requiredNegsCount cfg train_df)).toNat :=
      hneg_out.length_eq.trans hslen
    refine ⟨hpos_out, hneg_out.subperm.trans hsub, ?_, ?_⟩
    · rw [hneglen, ← hreq]
    · have hlenout : (rebalanceTrain sample shuffle cfg train_df).length =
          (trainDfPos cfg train_df).length +
            (pyInt (requiredNegsCount cfg train_df)).toNat := by
        rw [hperm.length_eq, List.length_append, hslen]
      unfold negsProportion
      rw [hneglen, hlenout]
      by_cases hPn : (trainDfPos cfg train_df).length +
          (pyInt (requiredNegsCount cfg train_df)).toNat = 0
      · rw [hPn]
        simp only [Nat.cast_zero, div_zero]
        linarith
      · have hpospn : (0 : ℚ) < (((trainDfPos cfg train_df).length +
            (pyInt (requiredNegsCount cfg train_df)).toNat : Nat) : ℚ) := by
          exact_mod_cast Nat.pos_of_ne_zero hPn
        rw [div_le_iff₀ hpospn]
        have hmul : (((pyInt (requiredNegsCount cfg train_df)).toNat : ℚ)) *
            (1 - cfg.max_train_negs_proportion) ≤
              ((trainDfPos cfg train_df).length : ℚ) *
                cfg.max_train_negs_proportion := by
          have h3 := mul_le_mul_of_nonneg_right hnle (le_of_lt h1p)
          calc (((pyInt (requiredNegsCount cfg train_df)).toNat : ℚ)) *
              (1 - cfg.max_train_negs_proportion) ≤
                requiredNegsCount cfg train_df *
                  (1 - cfg.max_train_negs_proportion) := h3
            _ = ((trainDfPos cfg train_df).length : ℚ) *
                cfg.max_train_negs_proportion := by
              rw [hreq, div_mul_cancel₀ _ h1p']
        push_cast
        nlinarith [hmul]

/-- The sampling oracle of the C1 witness: take the first `n` rows. -/
def wSample (l : List AggRow) (n : Nat) : List AggRow :=
  l.take n

/-- The training table of the C1 witness: one positive and two negative
rows, negative proportion `2/3 > 1/2`. -/
def wC1Df : List AggRow :=
  [{ id := "a", labels := {"A", "is_TPS"} },
   { id := "b", labels := {"neg"} },
   { id := "c", labels := {"neg"} }]

theorem imbalance_correction_witness :
    negsProportion wCfg (rebalanceTrain wSample id wCfg wC1Df) ≤
      wCfg.max_train_negs_proportion ∧
    (trainDfPos wCfg (rebalanceTrain wSample id wCfg wC1Df) ~
      trainDfPos wCfg wC1Df) := by
  have hs : ∀ (l : List AggRow) (n : Nat), n ≤ l.length →
      (wSample l n).length = n ∧ wSample l n <+~ l := by
    intro l n h
    constructor
    · unfold wSample
      rw [List.length_take]
      exact Nat.min_eq_left h
    · exact (List.take_sublist n l).subperm
  have hfilter : trainDfNegAll wCfg wC1Df =
      [{ id := "b", labels := {"neg"} }, { id := "c", labels := {"neg"} }] := by
    decide
  have hprop : negsProportion wCfg wC1Df = 2 / 3 := by
    unfold negsProportion
    rw [hfilter]
    norm_num [wC1Df]
  have hr : wCfg.max_train_negs_proportion < negsProportion wCfg wC1Df := by
    rw [hprop]
    norm_num [wCfg]
  have h := (imbalance_correction wCfg wSample id wC1Df
    (by norm_num [wCfg]) (by norm_num [wCfg]) (by decide) hs
    (fun l => List.Perm.refl l)).2 hr
  exact ⟨h.2.2.2, h.1⟩

end TerpeneMiner
